import Mathlib

/-!
Verification of the pdf-classifier repository's classification core:
the confidence combiner (scripts/combine_results.py), the fingerprint
matcher (scripts/text_classifier.py) and the generative-classifier
adapter (scripts/llm_classifier.py), shallowly embedded in Lean.

External libraries (Python's regex engine, the network call to the
model) are modelled as explicit oracle parameters; everything else is a
direct translation of the Python source.
-/

/-! ## Combiner (scripts/combine_results.py) -/

/-- A classifier result as consumed by `combine`: a JSON object whose
relevant keys may be absent (`none` models an absent key, mirroring
Python's `dict.get`). -/
structure CResult where
  status : Option String
  confidence : Option String
  issuer : Option String
  account_type : Option String
  statement_type : Option String
deriving DecidableEq, Repr

/-- The combined result built by `combine`: the output dict always
carries all five keys; `none` models JSON `null`. -/
structure Combined where
  status : String
  confidence : Option String
  issuer : Option String
  account_type : Option String
  statement_type : Option String
deriving DecidableEq, Repr

/-- `CONF_RANK` lookup with default 0: `CONF_RANK.get(c, 0)`. -/
def confRank (c : String) : Nat :=
  if c = "HIGH" then 3 else if c = "MEDIUM" then 2 else if c = "LOW" then 1 else 0

/-- Direct translation of `combine(text_r, llm_r)` from
scripts/combine_results.py (lines 28-94). `text_r.get("status", "error")`
becomes `text_r.status.getD "error"`. -/
def combine (text_r llm_r : CResult) : Combined :=
  let ts := text_r.status.getD "error"
  let ls := llm_r.status.getD "error"
  if ts = "error" ∧ ls = "error" then
    ⟨"error", none, none, none, none⟩
  else if (ts = "error" ∧ ls = "no_match") ∨ (ts = "no_match" ∧ ls = "error") then
    ⟨"no_match", none, none, none, none⟩
  else if ts = "success" ∧ (ls = "error" ∨ ls = "no_match") then
    ⟨"success", some "LOW", text_r.issuer, text_r.account_type, text_r.statement_type⟩
  else if ls = "success" ∧ (ts = "error" ∨ ts = "no_match") then
    ⟨"success", some "LOW", llm_r.issuer, llm_r.account_type, llm_r.statement_type⟩
  else if ts = "no_match" ∧ ls = "no_match" then
    ⟨"no_match", none, none, none, none⟩
  else if ts = "success" ∧ ls = "success" then
    let t_conf := text_r.confidence.getD "LOW"
    let l_conf := llm_r.confidence.getD "LOW"
    if (text_r.issuer = llm_r.issuer ∧ text_r.statement_type = llm_r.statement_type)
        ∧ t_conf = "HIGH" ∧ l_conf = "HIGH" then
      ⟨"success", some "HIGH", text_r.issuer, text_r.account_type, text_r.statement_type⟩
    else if text_r.issuer = llm_r.issuer ∧ text_r.statement_type = llm_r.statement_type then
      ⟨"success", some "MEDIUM", text_r.issuer, text_r.account_type, text_r.statement_type⟩
    else
      let winner := if confRank t_conf ≥ confRank l_conf then text_r else llm_r
      ⟨"success", some "LOW", winner.issuer, winner.account_type, winner.statement_type⟩
  else
    ⟨"error", none, none, none, none⟩

/-! ## Fingerprint matcher (scripts/text_classifier.py)

`REGEX_META` and the per-fingerprint dispatch of `fingerprint_matches`
are translated directly.  Python's `re.search` is modelled as an oracle
`search : String → String → Option Bool`: `search pat text = none`
models `re.error` (the pattern fails to compile) and `some b` models a
successful search returning a match (`b = true`) or not. -/

/-- Membership in `REGEX_META = set of the characters in the raw string
of left bracket, left paren, star, plus, question mark, left brace,
backslash, caret, dollar, bar`. -/
def isMeta (c : Char) : Bool :=
  c = '[' || c = '(' || c = '*' || c = '+' || c = '?' || c = '\x7b' ||
  c = '\\' || c = '^' || c = '$' || c = '|'

/-- `is_regex(pattern)`: true iff the pattern contains a character of
`REGEX_META`. -/
def is_regex (pattern : String) : Bool :=
  pattern.data.any isMeta

/-- Python's `str.lower` restricted to ASCII: lower every character. -/
def lowerStr (s : String) : String :=
  ⟨s.data.map Char.toLower⟩

/-- Python's whitespace class (ASCII part of the regex class used by
`re.sub` and `str.strip`). -/
def isPySpace (c : Char) : Bool :=
  c = ' ' || c = '\t' || c = '\n' || c = '\r' || c = '\x0b' || c = '\x0c'

/-- `re.sub` applied with the one-or-more-whitespace class and a single
space replacement: each maximal whitespace run becomes one space.  The
boolean argument records whether the previous character was part of a
whitespace run. -/
def collapseWs : Bool → List Char → List Char
  | _, [] => []
  | prev, c :: cs =>
    if isPySpace c then
      if prev then collapseWs true cs else ' ' :: collapseWs true cs
    else c :: collapseWs false cs

/-- Python's `str.strip()`: drop leading and trailing whitespace. -/
def stripWs (l : List Char) : List Char :=
  ((l.dropWhile isPySpace).reverse.dropWhile isPySpace).reverse

/-- The literal-fingerprint normalization in `fingerprint_matches`:
collapse whitespace runs, then strip. -/
def normalizeFp (s : String) : String :=
  ⟨stripWs (collapseWs false s.data)⟩

/-- Direct translation of `fingerprint_matches(fingerprint, text)` from
scripts/text_classifier.py (lines 28-43), with `re.search` abstracted as
the `search` oracle.  A pattern that fails to compile (`none`) is a
non-match; a non-pattern fingerprint is normalized and tested as a
substring of the text. -/
def fingerprint_matches (search : String → String → Option Bool)
    (fingerprint text : String) : Bool :=
  let fp_lower := lowerStr fingerprint
  if is_regex fingerprint then
    match search fp_lower text with
    | some b => b
    | none => false
  else
    let fp_normalized := normalizeFp fp_lower
    decide (fp_normalized.data <:+: text.data)

/-- kb.yaml statement entry: a name and a fingerprint list. -/
structure Statement where
  name : String
  fingerprints : List String
deriving DecidableEq, Repr

/-- kb.yaml account entry: an optional type and its statements. -/
structure Account where
  type : Option String
  statements : List Statement
deriving DecidableEq, Repr

/-- kb.yaml source entry: an institution name and its accounts. -/
structure Source where
  name : String
  accounts : List Account
deriving DecidableEq, Repr

/-- The knowledge base: an ordered sequence of sources. -/
structure KB where
  sources : List Source
deriving DecidableEq, Repr

/-- A success candidate built inside `classify` (text classifier): the
dict with status "success" and these fields. -/
structure Candidate where
  confidence : String
  issuer : String
  account_type : Option String
  statement_type : String
  evidence : List String
deriving DecidableEq, Repr

/-- The loop body of `classify` for one statement entry (lines 62-95):
skip an empty fingerprint list, collect the matched fingerprints, skip
when none matched, otherwise grade HIGH / MEDIUM / LOW by the first
passing rule and build the candidate. -/
def statementCandidate (search : String → String → Option Bool) (text : String)
    (source_name : String) (account_type : Option String) (st : Statement) :
    Option Candidate :=
  if st.fingerprints = [] then none
  else
    let matched := st.fingerprints.filter (fun fp => fingerprint_matches search fp text)
    let total := st.fingerprints.length
    if matched.length = 0 then none
    else
      let confidence :=
        if matched.length = total then "HIGH"
        else if 1 < matched.length then "MEDIUM"
        else "LOW"
      some ⟨confidence, source_name, account_type, st.name, matched⟩

/-- The replacement condition of the best-candidate update (lines
102-107): the challenger `c` beats the current best `b` when it ranks
strictly higher, or ranks equal with strictly more evidence. -/
def candLt (b c : Candidate) : Prop :=
  confRank c.confidence > confRank b.confidence ∨
    (confRank c.confidence = confRank b.confidence ∧
      c.evidence.length > b.evidence.length)

instance (b c : Candidate) : Decidable (candLt b c) := by
  unfold candLt
  infer_instance

/-- The best-candidate update (lines 99-108). -/
def betterCand (b c : Candidate) : Candidate :=
  if candLt b c then c else b

/-- `best`-update including the initial `best is None` case. -/
def updateBest (best : Option Candidate) (c : Candidate) : Option Candidate :=
  match best with
  | none => some c
  | some b => some (betterCand b c)

/-- One statement step of the `classify` loop: a statement that produces
no candidate leaves `best` unchanged. -/
def stepStatement (search : String → String → Option Bool) (text : String)
    (source_name : String) (account_type : Option String)
    (best : Option Candidate) (st : Statement) : Option Candidate :=
  match statementCandidate search text source_name account_type st with
  | none => best
  | some c => updateBest best c

/-- Direct translation of `classify(text, kb)` from
scripts/text_classifier.py (lines 49-110): fold the statement step over
every (source, account, statement) triple in KB order; `none` models the
final no_match dict. -/
def classify (search : String → String → Option Bool) (text : String) (kb : KB) :
    Option Candidate :=
  kb.sources.foldl (fun best src =>
    src.accounts.foldl (fun best acc =>
      acc.statements.foldl (stepStatement search text src.name acc.type) best) best) none

/-- The candidates produced by the statement loop, in KB order. -/
def candidatesOf (search : String → String → Option Bool) (text : String) (kb : KB) :
    List Candidate :=
  kb.sources.flatMap (fun src =>
    src.accounts.flatMap (fun acc =>
      acc.statements.filterMap (statementCandidate search text src.name acc.type)))

/-- Two characters are case variants when they are equal, or both are
letters with the same lowering. -/
def charCaseVar (c d : Char) : Prop :=
  c = d ∨ (c.isAlpha ∧ d.isAlpha ∧ c.toLower = d.toLower)

/-- Folding the best-candidate update over a candidate list, starting
from `best is None` — the selection loop of `classify` seen over the
flattened candidate sequence. -/
def foldBest (l : List Candidate) : Option Candidate :=
  l.foldl updateBest none

/-! ## Generative classifier adapter (scripts/llm_classifier.py)

`call_ollama` (network transport + JSON body parsing) is modelled as an
oracle from the attempt index to that call's outcome; the call's inputs
(prompt, system, model, timeout) are fixed before the loop, so both
attempts are made with identical inputs by construction. -/

/-- The parsed JSON body of a model response, as inspected by
`validate_response`.  `status` is the "status" entry (absent or its
string value); the three `has_` flags model presence of the required
keys; `evidence` distinguishes an absent "evidence" key (`none`), a
present non-list value (`some none`) and a present list
(`some (some l)`). -/
structure LLMResponse where
  status : Option String
  has_issuer : Bool
  has_account_type : Bool
  has_statement_type : Bool
  evidence : Option (Option (List String))
deriving DecidableEq, Repr

/-- Direct translation of `validate_response(data)` (lines 128-138):
"no_match" passes; "success" passes when issuer, account_type,
statement_type and evidence are all present and evidence is a list;
everything else fails. -/
def validate_response (d : LLMResponse) : Bool :=
  if d.status = some "no_match" then true
  else if d.status = some "success" then
    d.has_issuer && d.has_account_type && d.has_statement_type &&
      (match d.evidence with
       | some (some _) => true
       | _ => false)
  else false

/-- Direct translation of `compute_confidence(data)` (lines 141-151):
empty string for non-success; else HIGH for ≥ 2 evidence items, MEDIUM
for exactly 1, LOW for 0.  (`data.get("evidence", [])` defaults an
absent key to the empty list; a present non-list value would make
Python's `len` raise, but that state is unreachable because the function
is only applied to validated success responses — it is mapped to the
empty list here.) -/
def compute_confidence (d : LLMResponse) : String :=
  if d.status ≠ some "success" then ""
  else
    let evidence :=
      match d.evidence with
      | some (some l) => l
      | _ => []
    if evidence.length ≥ 2 then "HIGH"
    else if evidence.length = 1 then "MEDIUM"
    else "LOW"

/-- The outcome of one `call_ollama` invocation: a caught exception
(`requests.RequestException`, `json.JSONDecodeError` or `KeyError`)
with its message, or a parsed JSON body. -/
inductive Attempt where
  | exc (msg : String)
  | ok (data : LLMResponse)
deriving DecidableEq, Repr

/-- The value returned by the LLM `classify`: a validated response body
together with the confidence entry added for success (the mutation
`data["confidence"] = compute_confidence(data)`), or the final error
dict. -/
inductive LLMResult where
  | response (data : LLMResponse) (confidence : Option String)
  | error (msg : String)
deriving DecidableEq, Repr

/-- Models `json.dumps(data)` inside the schema-failure message; the
exact rendering is immaterial to the claims, only that the message
carries the rejected response. -/
def dumpsLLM (d : LLMResponse) : String :=
  reprStr d

/-- The return path for a validated response (lines 179-182): add the
confidence entry when the status is "success", then return the data. -/
def finishResp (d : LLMResponse) : LLMResult :=
  .response d (if d.status = some "success" then some (compute_confidence d) else none)

/-- `last_error` as recorded for one failed attempt: the exception
message, or the schema message for an invalid response. -/
def attemptFailMsg (a : Attempt) : String :=
  match a with
  | .exc m => m
  | .ok d => "Invalid response schema: " ++ dumpsLLM d

/-- Whether an attempt fails: it raises, or its response fails schema
validation. -/
def attemptFailsB (a : Attempt) : Bool :=
  match a with
  | .exc _ => true
  | .ok d => !validate_response d

/-- The second loop iteration followed by the final error return (lines
170-193 with `attempt = 1`): a validated response is returned, any
failure falls through to the error dict carrying this attempt's
`last_error`. -/
def secondAttempt (oracle : Nat → Attempt) : LLMResult :=
  match oracle 1 with
  | .exc m => .error ("LLM classification failed: " ++ m)
  | .ok d =>
    if validate_response d then finishResp d
    else .error ("LLM classification failed: " ++ ("Invalid response schema: " ++ dumpsLLM d))

/-- Translation of the retry loop of `classify` (lines 168-193).
`for attempt in range(2)` is unrolled: attempt 0, then — only on a
transport/parse exception or schema failure — attempt 1, then the final
error return; `last_error` always holds the latest failure's message, so
the error dict carries the second attempt's reason. -/
def llm_classify (oracle : Nat → Attempt) : LLMResult :=
  match oracle 0 with
  | .exc _ => secondAttempt oracle
  | .ok d =>
    if validate_response d then finishResp d
    else secondAttempt oracle

/-! ## Combiner theorems -/

/-- C1: when both classifier results have status "success", `combine`
returns status "success"; agreement (equal issuer and statement_type,
account_type not tested) with both confidences HIGH gives HIGH with
issuer/statement_type/account_type from the text side; agreement without
both HIGH gives MEDIUM with the same field selection; disagreement gives
LOW with all three fields from the side of higher confidence rank, ties
preferring the text (first-listed) side. -/
theorem combine_both_success (a b : CResult)
    (ha : a.status = some "success") (hb : b.status = some "success") :
    (combine a b).status = "success" ∧
    ((a.issuer = b.issuer ∧ a.statement_type = b.statement_type) →
      a.confidence.getD "LOW" = "HIGH" → b.confidence.getD "LOW" = "HIGH" →
      combine a b = ⟨"success", some "HIGH", a.issuer, a.account_type, a.statement_type⟩) ∧
    ((a.issuer = b.issuer ∧ a.statement_type = b.statement_type) →
      ¬(a.confidence.getD "LOW" = "HIGH" ∧ b.confidence.getD "LOW" = "HIGH") →
      combine a b = ⟨"success", some "MEDIUM", a.issuer, a.account_type, a.statement_type⟩) ∧
    (¬(a.issuer = b.issuer ∧ a.statement_type = b.statement_type) →
      confRank (a.confidence.getD "LOW") ≥ confRank (b.confidence.getD "LOW") →
      combine a b = ⟨"success", some "LOW", a.issuer, a.account_type, a.statement_type⟩) ∧
    (¬(a.issuer = b.issuer ∧ a.statement_type = b.statement_type) →
      confRank (a.confidence.getD "LOW") < confRank (b.confidence.getD "LOW") →
      combine a b = ⟨"success", some "LOW", b.issuer, b.account_type, b.statement_type⟩) := by
  refine ⟨?_, ?_, ?_, ?_, ?_⟩
  · by_cases hag : a.issuer = b.issuer ∧ a.statement_type = b.statement_type
    · by_cases hA : a.confidence.getD "LOW" = "HIGH" <;>
      by_cases hB : b.confidence.getD "LOW" = "HIGH" <;>
      simp [combine, ha, hb, hag, hA, hB]
    · simp [combine, ha, hb, hag]
  · intro hag hA hB
    simp [combine, ha, hb, hag, hA, hB]
  · intro hag hnot
    by_cases hA : a.confidence.getD "LOW" = "HIGH" <;>
    by_cases hB : b.confidence.getD "LOW" = "HIGH" <;>
    simp_all [combine, ha, hb, hag]
  · intro hag hge
    have : ¬((a.issuer = b.issuer ∧ a.statement_type = b.statement_type) ∧
        a.confidence.getD "LOW" = "HIGH" ∧ b.confidence.getD "LOW" = "HIGH") :=
      fun h => hag h.1
    simp [combine, ha, hb, hag, this, hge]
  · intro hag hlt
    have h1 : ¬((a.issuer = b.issuer ∧ a.statement_type = b.statement_type) ∧
        a.confidence.getD "LOW" = "HIGH" ∧ b.confidence.getD "LOW" = "HIGH") :=
      fun h => hag h.1
    have h2 : ¬(confRank (a.confidence.getD "LOW") ≥ confRank (b.confidence.getD "LOW")) :=
      Nat.not_le.mpr hlt
    simp [combine, ha, hb, hag, h1, h2]

/-- Witness for C1 at a concrete agreeing HIGH/HIGH pair. -/
theorem combine_both_success_witness :
    (combine ⟨some "success", some "HIGH", some "X", some "acc", some "S"⟩
             ⟨some "success", some "HIGH", some "X", none, some "S"⟩).status = "success" ∧
    combine ⟨some "success", some "HIGH", some "X", some "acc", some "S"⟩
            ⟨some "success", some "HIGH", some "X", none, some "S"⟩ =
      ⟨"success", some "HIGH", some "X", some "acc", some "S"⟩ := by
  have h := combine_both_success
    ⟨some "success", some "HIGH", some "X", some "acc", some "S"⟩
    ⟨some "success", some "HIGH", some "X", none, some "S"⟩ rfl rfl
  exact ⟨h.1, h.2.1 ⟨rfl, rfl⟩ rfl rfl⟩

/-- C3: with statuses drawn from error/no_match/success and at most one
side "success": both error gives error; error with no_match (either
order) gives no_match; both no_match gives no_match; exactly one success
gives success with confidence LOW and fields from the success side; and
every non-success outcome has null confidence and fields. -/
theorem combine_at_most_one_success (a b : CResult) (sa sb : String)
    (ha : a.status = some sa) (hb : b.status = some sb)
    (hsa : sa = "error" ∨ sa = "no_match" ∨ sa = "success")
    (hsb : sb = "error" ∨ sb = "no_match" ∨ sb = "success")
    (hone : ¬(sa = "success" ∧ sb = "success")) :
    (sa = "error" → sb = "error" → combine a b = ⟨"error", none, none, none, none⟩) ∧
    (sa = "error" → sb = "no_match" → combine a b = ⟨"no_match", none, none, none, none⟩) ∧
    (sa = "no_match" → sb = "error" → combine a b = ⟨"no_match", none, none, none, none⟩) ∧
    (sa = "no_match" → sb = "no_match" → combine a b = ⟨"no_match", none, none, none, none⟩) ∧
    (sa = "success" →
      combine a b = ⟨"success", some "LOW", a.issuer, a.account_type, a.statement_type⟩) ∧
    (sb = "success" →
      combine a b = ⟨"success", some "LOW", b.issuer, b.account_type, b.statement_type⟩) ∧
    ((combine a b).status ≠ "success" →
      (combine a b).confidence = none ∧ (combine a b).issuer = none ∧
      (combine a b).account_type = none ∧ (combine a b).statement_type = none) := by
  rcases hsa with rfl | rfl | rfl <;> rcases hsb with rfl | rfl | rfl <;>
    simp_all [combine]

/-- Witness for C3: an error/no_match pair yields no_match with all
fields null. -/
theorem combine_at_most_one_success_witness :
    combine ⟨some "error", none, none, none, none⟩
            ⟨some "no_match", none, some "X", none, some "S"⟩ =
      ⟨"no_match", none, none, none, none⟩ := by
  have h := combine_at_most_one_success
    ⟨some "error", none, none, none, none⟩
    ⟨some "no_match", none, some "X", none, some "S"⟩
    "error" "no_match" rfl rfl (Or.inl rfl) (Or.inr (Or.inl rfl))
    (by decide)
  exact h.2.1 rfl rfl

/-- C10: `combine` reads each input's status with Python's
`dict.get("status", "error")`; an input with no status field is combined
exactly as if its status were "error". -/
theorem combine_status_default_error (a b : CResult) (ha : a.status = none) :
    combine a b =
      combine ⟨some "error", a.confidence, a.issuer, a.account_type, a.statement_type⟩ b ∧
    combine b a =
      combine b ⟨some "error", a.confidence, a.issuer, a.account_type, a.statement_type⟩ := by
  constructor <;> simp [combine, ha]

/-- Witness for C10: a statusless result combined with a no_match result
behaves as error (giving no_match), and with a success result gives
success with confidence LOW. -/
theorem combine_status_default_error_witness :
    combine ⟨none, none, none, none, none⟩ ⟨some "no_match", none, none, none, none⟩ =
      combine ⟨some "error", none, none, none, none⟩
              ⟨some "no_match", none, none, none, none⟩ ∧
    (combine ⟨none, none, none, none, none⟩ ⟨some "no_match", none, none, none, none⟩).status
      = "no_match" ∧
    combine ⟨none, none, none, none, none⟩
            ⟨some "success", some "HIGH", some "X", some "acc", some "S"⟩ =
      ⟨"success", some "LOW", some "X", some "acc", some "S"⟩ := by
  refine ⟨(combine_status_default_error ⟨none, none, none, none, none⟩
    ⟨some "no_match", none, none, none, none⟩ rfl).1, rfl, rfl⟩

/-- C2 counterexample: `combine` is not order-insensitive in its fields.
Two disagreeing success results of equal (HIGH) confidence take all
fields from whichever argument comes first, so swapping the arguments
changes the emitted issuer. -/
theorem combine_not_symmetric_cex :
    combine ⟨some "success", some "HIGH", some "X", some "a1", some "S"⟩
            ⟨some "success", some "HIGH", some "Y", some "a2", some "T"⟩ ≠
    combine ⟨some "success", some "HIGH", some "Y", some "a2", some "T"⟩
            ⟨some "success", some "HIGH", some "X", some "a1", some "S"⟩ := by
  intro h
  have h' := congrArg Combined.issuer h
  simp [combine] at h'

/-- C2 (amended): `combine` is pure and total, and order-insensitive in
status and confidence — `combine a b` and `combine b a` always yield the
same status and the same confidence; the issuer/account_type/
statement_type fields are not order-insensitive (see the
counterexample). -/
theorem combine_symmetric_status_confidence (a b : CResult) :
    (combine a b).status = (combine b a).status ∧
    (combine a b).confidence = (combine b a).confidence := by
  by_cases h3 : a.status.getD "error" = "success" <;>
    by_cases h6 : b.status.getD "error" = "success"
  · -- both success
    by_cases hag : a.issuer = b.issuer ∧ a.statement_type = b.statement_type
    · by_cases hA : a.confidence.getD "LOW" = "HIGH" <;>
      by_cases hB : b.confidence.getD "LOW" = "HIGH" <;>
      simp [combine, h3, h6, hag.1, hag.2, hA, hB]
    · have hag' : ¬(b.issuer = a.issuer ∧ b.statement_type = a.statement_type) :=
        fun h => hag ⟨h.1.symm, h.2.symm⟩
      simp [combine, h3, h6, hag, hag']
  · -- a success, b not
    by_cases h4 : b.status.getD "error" = "error" <;>
    by_cases h5 : b.status.getD "error" = "no_match" <;>
    simp_all [combine]
  · -- b success, a not
    by_cases h1 : a.status.getD "error" = "error" <;>
    by_cases h2 : a.status.getD "error" = "no_match" <;>
    simp_all [combine]
  · -- neither success
    by_cases h1 : a.status.getD "error" = "error" <;>
    by_cases h2 : a.status.getD "error" = "no_match" <;>
    by_cases h4 : b.status.getD "error" = "error" <;>
    by_cases h5 : b.status.getD "error" = "no_match" <;>
    simp_all [combine]

/-! ## Fingerprint matcher theorems -/

/-- C4 counterexample: for a statement with exactly one fingerprint that
matches (k = 1 = n), the code grades HIGH (the all-matched rule fires
first), so the claimed biconditional "confidence LOW iff k = 1" is
false at this input. -/
theorem statement_confidence_low_iff_cex :
    statementCandidate (fun _ _ => none) "my bank statement" "Src" none
        ⟨"S", ["bank"]⟩ = some ⟨"HIGH", "Src", none, "S", ["bank"]⟩ ∧
    ((["bank"] : List String).filter
        (fun fp => fingerprint_matches (fun _ _ => none) fp "my bank statement")).length = 1 ∧
    ¬ (statementCandidate (fun _ _ => none) "my bank statement" "Src" none
        ⟨"S", ["bank"]⟩).map Candidate.confidence = some "LOW" := by
  refine ⟨by decide, by decide, by decide⟩

/-- C4 (amended): for a statement with n ≥ 1 fingerprints of which k
match, the statement produces a candidate iff k ≠ 0, and the candidate's
confidence is HIGH iff k = n, MEDIUM iff 1 < k < n, and LOW iff k = 1
and n > 1 (when k = n = 1 the all-matched rule fires first and gives
HIGH); statements with an empty fingerprint list are skipped. -/
theorem statement_confidence (search : String → String → Option Bool)
    (text source_name : String) (account_type : Option String) (st : Statement)
    (hn : 1 ≤ st.fingerprints.length) :
    ((statementCandidate search text source_name account_type st).isSome ↔
      (st.fingerprints.filter (fun fp => fingerprint_matches search fp text)).length ≠ 0) ∧
    ∀ c, statementCandidate search text source_name account_type st = some c →
      (c.confidence = "HIGH" ↔
        (st.fingerprints.filter (fun fp => fingerprint_matches search fp text)).length =
          st.fingerprints.length) ∧
      (c.confidence = "MEDIUM" ↔
        1 < (st.fingerprints.filter (fun fp => fingerprint_matches search fp text)).length ∧
        (st.fingerprints.filter (fun fp => fingerprint_matches search fp text)).length <
          st.fingerprints.length) ∧
      (c.confidence = "LOW" ↔
        (st.fingerprints.filter (fun fp => fingerprint_matches search fp text)).length = 1 ∧
        1 < st.fingerprints.length) := by
  have hne : st.fingerprints ≠ [] := by
    intro h
    rw [h] at hn
    simp at hn
  have hkn : (st.fingerprints.filter (fun fp => fingerprint_matches search fp text)).length ≤
      st.fingerprints.length := List.length_filter_le _ _
  unfold statementCandidate
  rw [if_neg hne]
  dsimp only
  constructor
  · by_cases h0 : (st.fingerprints.filter (fun fp => fingerprint_matches search fp text)).length = 0
    · rw [if_pos h0]
      exact iff_of_false (by simp) (by omega)
    · rw [if_neg h0]
      exact iff_of_true (by simp) h0
  · intro c hc
    by_cases h0 : (st.fingerprints.filter (fun fp => fingerprint_matches search fp text)).length = 0
    · rw [if_pos h0] at hc
      cases hc
    · rw [if_neg h0] at hc
      injection hc with hc
      subst hc
      by_cases hH : (st.fingerprints.filter (fun fp => fingerprint_matches search fp text)).length =
          st.fingerprints.length
      · rw [if_pos hH]
        exact ⟨iff_of_true rfl hH, iff_of_false (by simp) (by omega),
          iff_of_false (by simp) (by omega)⟩
      · rw [if_neg hH]
        by_cases hM : 1 <
            (st.fingerprints.filter (fun fp => fingerprint_matches search fp text)).length
        · rw [if_pos hM]
          exact ⟨iff_of_false (by simp) (by omega), iff_of_true rfl (by omega),
            iff_of_false (by simp) (by omega)⟩
        · rw [if_neg hM]
          exact ⟨iff_of_false (by simp) (by omega), iff_of_false (by simp) (by omega),
            iff_of_true rfl (by omega)⟩

/-- Witness for C4 at a two-fingerprint statement with one match:
confidence LOW. -/
theorem statement_confidence_witness :
    statementCandidate (fun _ _ => none) "my bank" "Src" none ⟨"S", ["bank", "qqq"]⟩ =
      some ⟨"LOW", "Src", none, "S", ["bank"]⟩ ∧
    (((["bank", "qqq"] : List String).filter
        (fun fp => fingerprint_matches (fun _ _ => none) fp "my bank")).length = 1 ∧
      1 < (["bank", "qqq"] : List String).length) := by
  have h := statement_confidence (fun _ _ => none) "my bank" "Src" none
    ⟨"S", ["bank", "qqq"]⟩ (by decide)
  exact ⟨by decide, (h.2 ⟨"LOW", "Src", none, "S", ["bank"]⟩ (by decide)).2.2.mp rfl⟩

/-- C6: `fingerprint_matches` evaluates the fingerprint through the
regex oracle (over its lowered form) iff the fingerprint contains at
least one `REGEX_META` character; otherwise it is a substring test of
the whitespace-collapsed, stripped, lowered fingerprint against the
text; and a pattern whose compilation fails (oracle `none`) is a
non-match rather than an error. -/
theorem fingerprint_matches_dispatch (search : String → String → Option Bool)
    (fp text : String) :
    ((∃ c ∈ fp.data, isMeta c = true) →
      fingerprint_matches search fp text = (search (lowerStr fp) text).getD false) ∧
    ((¬∃ c ∈ fp.data, isMeta c = true) →
      fingerprint_matches search fp text =
        decide ((normalizeFp (lowerStr fp)).data <:+: text.data)) ∧
    ((∃ c ∈ fp.data, isMeta c = true) → search (lowerStr fp) text = none →
      fingerprint_matches search fp text = false) := by
  have hreg : is_regex fp = true ↔ ∃ c ∈ fp.data, isMeta c = true := by
    simp [is_regex, List.any_eq_true]
  refine ⟨?_, ?_, ?_⟩
  · intro h
    simp only [fingerprint_matches]
    rw [if_pos (hreg.mpr h)]
    cases search (lowerStr fp) text <;> rfl
  · intro h
    simp only [fingerprint_matches]
    rw [if_neg (fun hc => h (hreg.mp hc))]
  · intro h hnone
    simp only [fingerprint_matches]
    rw [if_pos (hreg.mpr h), hnone]

/-- Witness for C6: a starred pattern goes through the oracle (and a
failing compile is a non-match); a plain fingerprint with a doubled
space is found as a substring of the normalized text. -/
theorem fingerprint_matches_dispatch_witness :
    fingerprint_matches (fun _ _ => some true) "ab*" "zzz" = true ∧
    fingerprint_matches (fun _ _ => none) "ab*" "zzz" = false ∧
    fingerprint_matches (fun _ _ => none) "Bank  Corp" "my bank corp x" = true := by
  have h1 := (fingerprint_matches_dispatch (fun _ _ => some true) "ab*" "zzz").1 (by decide)
  have h2 := (fingerprint_matches_dispatch (fun _ _ => none) "ab*" "zzz").2.2 (by decide) rfl
  have h3 := (fingerprint_matches_dispatch (fun _ _ => none) "Bank  Corp" "my bank corp x").2.1
    (by decide)
  exact ⟨by rw [h1]; rfl, h2, by rw [h3]; decide⟩

theorem charCaseVar_toLower {c d : Char} (h : charCaseVar c d) :
    c.toLower = d.toLower := by
  rcases h with rfl | ⟨_, _, h⟩
  · rfl
  · exact h

theorem alpha_isMeta_false {c : Char} (h : c.isAlpha = true) : isMeta c = false := by
  by_contra hne
  rw [Bool.not_eq_false] at hne
  simp only [isMeta, Bool.or_eq_true, decide_eq_true_eq] at hne
  rcases hne with ((((((((rfl | rfl) | rfl) | rfl) | rfl) | rfl) | rfl) | rfl) | rfl) | rfl <;>
    simp at h

theorem charCaseVar_isMeta {c d : Char} (h : charCaseVar c d) : isMeta c = isMeta d := by
  rcases h with rfl | ⟨hc, hd, _⟩
  · rfl
  · rw [alpha_isMeta_false hc, alpha_isMeta_false hd]

theorem forall2_caseVar {l₁ l₂ : List Char} (h : List.Forall₂ charCaseVar l₁ l₂) :
    l₁.map Char.toLower = l₂.map Char.toLower ∧ l₁.any isMeta = l₂.any isMeta := by
  induction h with
  | nil => exact ⟨rfl, rfl⟩
  | cons hcd _ ih =>
    refine ⟨?_, ?_⟩
    · simp only [List.map_cons, charCaseVar_toLower hcd, ih.1]
    · simp only [List.any_cons, charCaseVar_isMeta hcd, ih.2]

/-- C7: fingerprint matching is case-insensitive in the fingerprint for
both literal and pattern fingerprints: two fingerprints that differ
only in letter case match exactly the same texts. -/
theorem fingerprint_matches_case_insensitive (search : String → String → Option Bool)
    (f₁ f₂ text : String) (h : List.Forall₂ charCaseVar f₁.data f₂.data) :
    fingerprint_matches search f₁ text = fingerprint_matches search f₂ text := by
  obtain ⟨hmap, hany⟩ := forall2_caseVar h
  have hlow : lowerStr f₁ = lowerStr f₂ := by
    unfold lowerStr
    rw [hmap]
  have hreg : is_regex f₁ = is_regex f₂ := by
    unfold is_regex
    rw [hany]
  unfold fingerprint_matches
  rw [hreg, hlow]

/-- Witness for C7: "BANK" and "bank" behave identically. -/
theorem fingerprint_matches_case_insensitive_witness :
    fingerprint_matches (fun _ _ => none) "BANK" "my bank" =
      fingerprint_matches (fun _ _ => none) "bank" "my bank" ∧
    fingerprint_matches (fun _ _ => none) "BANK" "my bank" = true := by
  have hf : List.Forall₂ charCaseVar "BANK".data "bank".data := by
    show List.Forall₂ charCaseVar ['B', 'A', 'N', 'K'] ['b', 'a', 'n', 'k']
    refine .cons ?_ (.cons ?_ (.cons ?_ (.cons ?_ .nil))) <;>
      exact Or.inr ⟨by decide, by decide, by decide⟩
  exact ⟨fingerprint_matches_case_insensitive (fun _ _ => none) "BANK" "bank" "my bank" hf,
    by decide⟩

theorem candLt_trans {a b c : Candidate} (h₁ : candLt a b) (h₂ : candLt b c) :
    candLt a c := by
  unfold candLt at *
  omega

theorem candLt_of_not_of_candLt {a b c : Candidate} (h₁ : ¬candLt a b) (h₂ : candLt a c) :
    candLt b c := by
  unfold candLt at *
  omega

theorem foldl_updateBest_some (l : List Candidate) : ∀ b : Candidate,
    ∃ r l₁ l₂, l.foldl updateBest (some b) = some r ∧ b :: l = l₁ ++ r :: l₂ ∧
      (∀ c ∈ l₁, candLt c r) ∧ (∀ c ∈ l₂, ¬candLt r c) := by
  induction l with
  | nil =>
    intro b
    exact ⟨b, [], [], rfl, rfl, by simp, by simp⟩
  | cons c l ih =>
    intro b
    rw [List.foldl_cons]
    show ∃ r l₁ l₂, l.foldl updateBest (some (betterCand b c)) = some r ∧ _ ∧ _ ∧ _
    obtain ⟨r, l₁, l₂, hfold, hdec, hlt, hnlt⟩ := ih (betterCand b c)
    by_cases hbc : candLt b c
    · have hb : betterCand b c = c := if_pos hbc
      rw [hb] at hdec
      cases l₁ with
      | nil =>
        have h2 := List.cons.inj (by simpa using hdec)
        refine ⟨r, [b], l₂, hfold, ?_, ?_, hnlt⟩
        · simp [h2.1, h2.2]
        · intro y hy
          rcases List.mem_cons.mp hy with rfl | hy'
          · exact h2.1 ▸ hbc
          · exact absurd hy' (List.not_mem_nil y)
      | cons x l₁' =>
        have h2 := List.cons.inj hdec
        have hcr : candLt c r := by
          have hx := hlt x (List.mem_cons_self x l₁')
          rwa [← h2.1] at hx
        refine ⟨r, b :: x :: l₁', l₂, hfold, ?_, ?_, hnlt⟩
        · simp [h2.1, h2.2]
        · intro y hy
          rcases List.mem_cons.mp hy with rfl | hy'
          · exact candLt_trans hbc hcr
          · rcases List.mem_cons.mp hy' with rfl | hy''
            · rw [← h2.1]
              exact hcr
            · exact hlt y (List.mem_cons_of_mem x hy'')
    · have hb : betterCand b c = b := if_neg hbc
      rw [hb] at hdec
      cases l₁ with
      | nil =>
        have h2 := List.cons.inj (by simpa using hdec)
        refine ⟨r, [], c :: l₂, hfold, ?_, by simp, ?_⟩
        · simp [h2.1, h2.2]
        · intro y hy
          rcases List.mem_cons.mp hy with rfl | hy'
          · exact fun hc => hbc (by rwa [h2.1])
          · exact hnlt y hy'
      | cons x l₁' =>
        have h2 := List.cons.inj hdec
        have hbr : candLt b r := by
          have hx := hlt x (List.mem_cons_self x l₁')
          rwa [← h2.1] at hx
        refine ⟨r, x :: c :: l₁', l₂, hfold, ?_, ?_, hnlt⟩
        · simp [h2.1, h2.2]
        · intro y hy
          rcases List.mem_cons.mp hy with rfl | hy'
          · rw [← h2.1]
            exact hbr
          · rcases List.mem_cons.mp hy' with rfl | hy''
            · exact candLt_of_not_of_candLt hbc hbr
            · exact hlt y (List.mem_cons_of_mem x hy'')

theorem foldBest_spec (l : List Candidate) :
    (foldBest l = none ↔ l = []) ∧
    ∀ r, foldBest l = some r → ∃ l₁ l₂, l = l₁ ++ r :: l₂ ∧
      (∀ c ∈ l₁, candLt c r) ∧ (∀ c ∈ l₂, ¬candLt r c) := by
  cases l with
  | nil =>
    refine ⟨by simp [foldBest], ?_⟩
    intro r h
    simp [foldBest] at h
  | cons c l =>
    obtain ⟨r', l₁, l₂, hfold, hdec, hlt, hnlt⟩ := foldl_updateBest_some l c
    have hstep : foldBest (c :: l) = some r' := by
      simp only [foldBest, List.foldl_cons]
      exact hfold
    refine ⟨?_, ?_⟩
    · rw [hstep]
      simp
    · intro r hr
      rw [hstep] at hr
      injection hr with hr
      subst hr
      exact ⟨l₁, l₂, hdec, hlt, hnlt⟩

theorem foldl_stepStatement_eq (search : String → String → Option Bool) (text : String)
    (source_name : String) (account_type : Option String) (l : List Statement) :
    ∀ init : Option Candidate,
      l.foldl (stepStatement search text source_name account_type) init =
        (l.filterMap (statementCandidate search text source_name account_type)).foldl
          updateBest init := by
  induction l with
  | nil => intro init; rfl
  | cons st l ih =>
    intro init
    rw [List.foldl_cons, List.filterMap_cons]
    cases h : statementCandidate search text source_name account_type st with
    | none =>
      rw [ih]
      congr 1
      simp only [stepStatement, h]
    | some c =>
      rw [List.foldl_cons, ih]
      congr 1
      simp only [stepStatement, h]

theorem foldl_flatMap_eq {α β γ : Type} (l : List α) (g : α → List β) (f : γ → β → γ) :
    ∀ init : γ,
      (l.flatMap g).foldl f init = l.foldl (fun acc x => (g x).foldl f acc) init := by
  induction l with
  | nil => intro init; rfl
  | cons x l ih =>
    intro init
    rw [List.flatMap_cons, List.foldl_append, List.foldl_cons, ih]

theorem classify_eq_foldBest (search : String → String → Option Bool) (text : String)
    (kb : KB) : classify search text kb = foldBest (candidatesOf search text kb) := by
  unfold classify candidatesOf foldBest
  rw [foldl_flatMap_eq]
  congr 1
  funext acc src
  rw [foldl_flatMap_eq]
  congr 1
  funext acc2 a
  rw [foldl_stepStatement_eq]

/-- C5: `classify` returns `none` (no_match) iff no statement produces a
candidate; otherwise it returns the unique first-encountered best
candidate of the KB-ordered candidate sequence: every earlier candidate
is strictly beaten (higher confidence rank, or equal rank with more
matched fingerprints) by the result, and no later candidate beats it. -/
theorem classify_best_candidate (search : String → String → Option Bool)
    (text : String) (kb : KB) :
    (classify search text kb = none ↔ candidatesOf search text kb = []) ∧
    ∀ r, classify search text kb = some r →
      ∃ l₁ l₂, candidatesOf search text kb = l₁ ++ r :: l₂ ∧
        (∀ c ∈ l₁, candLt c r) ∧ (∀ c ∈ l₂, ¬candLt r c) := by
  rw [classify_eq_foldBest]
  exact foldBest_spec (candidatesOf search text kb)

/-- Witness for C5: a KB with a LOW statement followed by a HIGH
statement; the HIGH one is returned and the decomposition of the
candidate list around it exists. -/
theorem classify_best_candidate_witness :
    classify (fun _ _ => none) "x"
      ⟨[⟨"A", [⟨none, [⟨"S1", ["x", "y"]⟩, ⟨"S2", ["x"]⟩]⟩]⟩]⟩ =
      some ⟨"HIGH", "A", none, "S2", ["x"]⟩ ∧
    ∃ l₁ l₂,
      candidatesOf (fun _ _ => none) "x"
          ⟨[⟨"A", [⟨none, [⟨"S1", ["x", "y"]⟩, ⟨"S2", ["x"]⟩]⟩]⟩]⟩ =
        l₁ ++ (⟨"HIGH", "A", none, "S2", ["x"]⟩ : Candidate) :: l₂ ∧
      (∀ c ∈ l₁, candLt c ⟨"HIGH", "A", none, "S2", ["x"]⟩) ∧
      (∀ c ∈ l₂, ¬candLt (⟨"HIGH", "A", none, "S2", ["x"]⟩ : Candidate) c) := by
  refine ⟨by decide, ?_⟩
  exact (classify_best_candidate (fun _ _ => none) "x"
    ⟨[⟨"A", [⟨none, [⟨"S1", ["x", "y"]⟩, ⟨"S2", ["x"]⟩]⟩]⟩]⟩).2
    ⟨"HIGH", "A", none, "S2", ["x"]⟩ (by decide)

/-! ## Generative adapter theorems -/

/-- C8: the adapter returns the first attempt whose response validates
(confidence added for success via `finishResp`); a failed first attempt
(exception or schema failure) triggers exactly one retry, whose
validated response is returned; two failures give an "error" result
carrying the last (second) failure reason instead of raising; and the
result depends only on the first two attempt outcomes — no third call
is ever consulted. -/
theorem llm_classify_retry_policy (oracle : Nat → Attempt) :
    (∀ d, oracle 0 = .ok d → validate_response d = true →
      llm_classify oracle = finishResp d) ∧
    (attemptFailsB (oracle 0) = true →
      ∀ d, oracle 1 = .ok d → validate_response d = true →
        llm_classify oracle = finishResp d) ∧
    (attemptFailsB (oracle 0) = true → attemptFailsB (oracle 1) = true →
      llm_classify oracle =
        .error ("LLM classification failed: " ++ attemptFailMsg (oracle 1))) ∧
    (∀ oracle' : Nat → Attempt, oracle' 0 = oracle 0 → oracle' 1 = oracle 1 →
      llm_classify oracle' = llm_classify oracle) := by
  refine ⟨?_, ?_, ?_, ?_⟩
  · intro d h0 hv
    simp [llm_classify, h0, hv]
  · intro hf d h1 hv
    cases h0 : oracle 0 with
    | exc m => simp [llm_classify, h0, secondAttempt, h1, hv]
    | ok d0 =>
      have hv0 : validate_response d0 = false := by
        rw [h0] at hf
        simpa [attemptFailsB] using hf
      simp [llm_classify, h0, hv0, secondAttempt, h1, hv]
  · intro hf0 hf1
    have hsec : secondAttempt oracle =
        .error ("LLM classification failed: " ++ attemptFailMsg (oracle 1)) := by
      cases h1 : oracle 1 with
      | exc m => simp [secondAttempt, h1, attemptFailMsg]
      | ok d1 =>
        have hv1 : validate_response d1 = false := by
          rw [h1] at hf1
          simpa [attemptFailsB] using hf1
        simp [secondAttempt, h1, hv1, attemptFailMsg]
    cases h0 : oracle 0 with
    | exc m => simp [llm_classify, h0, hsec]
    | ok d0 =>
      have hv0 : validate_response d0 = false := by
        rw [h0] at hf0
        simpa [attemptFailsB] using hf0
      simp [llm_classify, h0, hv0, hsec]
  · intro o' h0 h1
    simp only [llm_classify, secondAttempt, h0, h1]

/-- Witness for C8: a first-attempt exception followed by a validated
no_match response yields that response. -/
theorem llm_classify_retry_policy_witness :
    llm_classify (fun n => if n = 0 then Attempt.exc "boom"
        else Attempt.ok ⟨some "no_match", false, false, false, none⟩) =
      finishResp ⟨some "no_match", false, false, false, none⟩ :=
  (llm_classify_retry_policy (fun n => if n = 0 then Attempt.exc "boom"
      else Attempt.ok ⟨some "no_match", false, false, false, none⟩)).2.1 (by decide)
    ⟨some "no_match", false, false, false, none⟩ (by decide) (by decide)

/-- C9 counterexample: the generative adapter does return a success
result with an empty evidence list — an all-keys-present success
response with `evidence = []` passes schema validation (a list need not
be non-empty) and is returned graded LOW, contradicting the claim that
empty evidence is always rejected before being returned. -/
theorem llm_success_empty_evidence_cex :
    llm_classify (fun _ => Attempt.ok ⟨some "success", true, true, true, some (some [])⟩) =
      LLMResult.response ⟨some "success", true, true, true, some (some [])⟩ (some "LOW") ∧
    (⟨some "success", true, true, true, some (some [])⟩ : LLMResponse).evidence =
      some (some ([] : List String)) := by
  exact ⟨by decide, rfl⟩

theorem statementCandidate_evidence {search : String → String → Option Bool}
    {text source_name : String} {account_type : Option String} {st : Statement}
    {c : Candidate} (h : statementCandidate search text source_name account_type st = some c) :
    c.evidence ≠ [] := by
  unfold statementCandidate at h
  by_cases he : st.fingerprints = []
  · rw [if_pos he] at h
    cases h
  · rw [if_neg he] at h
    dsimp only at h
    by_cases h0 : (st.fingerprints.filter (fun fp => fingerprint_matches search fp text)).length = 0
    · rw [if_pos h0] at h
      cases h
    · rw [if_neg h0] at h
      injection h with h
      subst h
      intro hnil
      dsimp only at hnil
      exact h0 (by rw [hnil]; rfl)

theorem secondAttempt_response {oracle : Nat → Attempt} {d : LLMResponse}
    {conf : Option String} (h : secondAttempt oracle = LLMResult.response d conf) :
    validate_response d = true ∧
      conf = (if d.status = some "success" then some (compute_confidence d) else none) := by
  unfold secondAttempt at h
  cases h1 : oracle 1 with
  | exc m =>
    rw [h1] at h
    cases h
  | ok d1 =>
    rw [h1] at h
    dsimp only at h
    by_cases hv : validate_response d1 = true
    · rw [if_pos hv] at h
      unfold finishResp at h
      injection h with ha hb
      subst ha
      exact ⟨hv, hb.symm⟩
    · rw [if_neg hv] at h
      cases h

theorem llm_classify_response_conf {oracle : Nat → Attempt} {d : LLMResponse}
    {conf : Option String} (h : llm_classify oracle = LLMResult.response d conf) :
    validate_response d = true ∧
      conf = (if d.status = some "success" then some (compute_confidence d) else none) := by
  unfold llm_classify at h
  cases h0 : oracle 0 with
  | exc m =>
    rw [h0] at h
    exact secondAttempt_response h
  | ok d0 =>
    rw [h0] at h
    dsimp only at h
    by_cases hv : validate_response d0 = true
    · rw [if_pos hv] at h
      unfold finishResp at h
      injection h with ha hb
      subst ha
      exact ⟨hv, hb.symm⟩
    · rw [if_neg hv] at h
      exact secondAttempt_response h

/-- C9 (amended): every Success result returned by the fingerprint
matcher has non-empty evidence; the generative adapter, however, can
return a success result with empty evidence — its confidence entry is
then always the computed one, which grades empty evidence LOW. -/
theorem classify_success_evidence :
    (∀ (search : String → String → Option Bool) (text : String) (kb : KB) (r : Candidate),
      classify search text kb = some r → r.evidence ≠ []) ∧
    (∀ (oracle : Nat → Attempt) (d : LLMResponse) (conf : Option String),
      llm_classify oracle = LLMResult.response d conf → d.status = some "success" →
      conf = some (compute_confidence d) ∧
        (d.evidence = some (some []) → conf = some "LOW")) := by
  constructor
  · intro search text kb r h
    rw [classify_eq_foldBest] at h
    obtain ⟨l₁, l₂, hdec, _, _⟩ := (foldBest_spec _).2 r h
    have hr : r ∈ candidatesOf search text kb := by
      rw [hdec]
      exact List.mem_append.mpr (Or.inr (List.mem_cons_self r l₂))
    unfold candidatesOf at hr
    obtain ⟨src, _, hr⟩ := List.mem_flatMap.mp hr
    obtain ⟨acc, _, hr⟩ := List.mem_flatMap.mp hr
    obtain ⟨st, _, hcand⟩ := List.mem_filterMap.mp hr
    exact statementCandidate_evidence hcand
  · intro oracle d conf h hs
    obtain ⟨_, hconf⟩ := llm_classify_response_conf h
    rw [if_pos hs] at hconf
    refine ⟨hconf, ?_⟩
    intro hemp
    have hlow : compute_confidence d = "LOW" := by
      simp [compute_confidence, hs, hemp]
    rw [hconf, hlow]

/-- Witness for C9: a concrete HIGH fingerprint result has non-empty
evidence, and a success response with one evidence item is returned
with the computed confidence. -/
theorem classify_success_evidence_witness :
    (⟨"HIGH", "B", none, "S", ["y"]⟩ : Candidate).evidence ≠ [] ∧
    some "MEDIUM" =
      some (compute_confidence ⟨some "success", true, true, true, some (some ["e"])⟩) := by
  constructor
  · exact classify_success_evidence.1 (fun _ _ => none) "y yy"
      ⟨[⟨"B", [⟨none, [⟨"S", ["y"]⟩]⟩]⟩]⟩ ⟨"HIGH", "B", none, "S", ["y"]⟩ (by decide)
  · exact (classify_success_evidence.2
      (fun _ => Attempt.ok ⟨some "success", true, true, true, some (some ["e"])⟩)
      ⟨some "success", true, true, true, some (some ["e"])⟩ (some "MEDIUM")
      (by decide) rfl).1
